import Mathlib

/-!
Verification development for `samples/download-lcc.py`: a sequential script
that downloads a fixed list of LCC files from a CDN into a local directory,
trying alternate base URLs per filename and skipping files already present.

The script is embedded shallowly:
  * the filesystem is a map from paths to optional byte contents
    (`FS := String → Option (List Nat)`, bytes as natural numbers);
  * the network is a function from URLs to a `NetBehavior` describing what a
    single streamed GET of that URL does: a complete response with a status
    code and body, an exception raised during the `requests.get` call itself,
    or an exception raised part way through writing the streamed body
    (after `k` chunks were written) — the `try` block of `download_file`
    spans both the request and the chunked write, so both fault positions
    are reachable in the source;
  * `download_file` returns its result, the new filesystem, and the number
    of network requests issued (0 or 1);
  * the orchestrator loop (lines 66–74 of the source) is a fold of a step
    function over the task list, with a state carrying the filesystem, the
    `downloaded_files` set, and two observation logs: the tasks for which
    `download_file` was invoked, and the tasks for which an actual network
    request was issued.
-/

namespace LCC

/-- Literal from line 19 of the source: the fixed output directory. -/
def output_dir : String := "lcc-sample-level2"

/-- Literal from line 11 of the source: the URL of the main meta file. -/
def lcc_meta_url : String :=
  "https://da9i2vj1xvtoc.cloudfront.net/lcc-model/showroom+level+2/showroom2.lcc"

/-- Literal from lines 13–16 of the source: the two candidate base URLs. -/
def data_base_options : List String :=
  ["https://da9i2vj1xvtoc.cloudfront.net/lcc-model/showroom+level+2/",
   "https://da9i2vj1xvtoc.cloudfront.net/lcc-model/showroom+level+2/showroom2/"]

/-- Literal from lines 23–28 of the source: the filenames to obtain. -/
def base_files : List String :=
  ["meta.lcc", "index.bin", "data.bin", "environment.bin"]

/-- Keep the characters of `s` up to and including its last slash
(the empty string if `s` has no slash). Helper for `urljoin`. -/
def keepThroughLastSlash (s : String) : String :=
  String.mk ((s.toList.reverse.dropWhile (fun c => c ≠ '/')).reverse)

/-- Model of Python's `urllib.parse.urljoin` for the references occurring in
this script: each reference is a bare relative filename (no scheme, no
authority, no leading slash), for which `urljoin` replaces everything after
the last slash of the base URL by the reference. -/
def urljoin (base rel : String) : String :=
  keepThroughLastSlash base ++ rel

/-- Lines 31–38 of the source: the task list, a meta task followed by one
task per (filename, base URL) pair for the remaining filenames. -/
def files_to_download : List (String × String) :=
  [(lcc_meta_url, "meta.lcc")] ++
    (base_files.drop 1).flatMap (fun filename =>
      data_base_options.map (fun base_url => (urljoin base_url filename, filename)))

/-- Line 77 of the source: `expected_files = set(f for _, f in files_to_download)`. -/
def expected_files : Finset String :=
  (files_to_download.map Prod.snd).toFinset

/-- Line 42 of the source: `os.path.join(output_dir, filename)` for the
relative filenames used here. -/
def filepathOf (filename : String) : String :=
  output_dir ++ "/" ++ filename

/-- A filesystem: a map from paths to optional byte contents. -/
abbrev FS : Type := String → Option (List Nat)

/-- Write contents `v` at path `p` (creating or overwriting the file). -/
def fsUpdate (fs : FS) (p : String) (v : List Nat) : FS :=
  fun q => if q = p then some v else fs q

/-- What one streamed GET of a given URL does, as observed by the `try`
block of `download_file` (lines 47–61 of the source). -/
inductive NetBehavior : Type
  /-- The request completes with status `status` and the full body streams
  without fault. -/
  | resp (status : Nat) (body : List Nat)
  /-- An exception (timeout, connection error) is raised by `requests.get`
  itself, before any file is opened. -/
  | exnDuringGet
  /-- The response has status 200, the file is opened (truncating it), and
  an exception (connection error mid-stream, disk error) is raised after the
  first `k` nonempty chunks of `body` have been written. -/
  | exnDuringWrite (body : List Nat) (k : Nat)
deriving DecidableEq

/-- The (deterministic) network environment of one run. -/
abbrev Net : Type := String → NetBehavior

/-- The three observable results of `download_file`: the string `'exists'`,
`True`, and `False` in the source. -/
inductive DLResult : Type
  | fileExists
  | downloaded
  | failed
deriving DecidableEq

/-- Structural recursion (on a fuel that starts at the list's length) behind
`chunksOf`. -/
def chunksOfAux : Nat → Nat → List Nat → List (List Nat)
  | _, _, [] => []
  | 0, _, _ => []
  | fuel + 1, n, l =>
    if n = 0 then [] else l.take n :: chunksOfAux fuel n (l.drop n)

/-- Split a byte sequence into the chunks yielded by
`response.iter_content(chunk_size=n)` on line 52 of the source: successive
pieces of `n` bytes, the last possibly shorter. -/
def chunksOf (n : Nat) (l : List Nat) : List (List Nat) :=
  chunksOfAux l.length n l

/-- The bytes on disk after the loop on lines 52–54 of the source writes
every nonempty chunk of `body` (the `if chunk:` test skips empty chunks). -/
def writtenContent (body : List Nat) : List Nat :=
  (((chunksOf 8192 body).filter (fun c => !c.isEmpty)).flatten)

/-- The bytes on disk when the chunked write is interrupted after the first
`k` nonempty chunks: `open(filepath, 'wb')` has already truncated the file,
and exactly those chunks were written. -/
def truncatedContent (body : List Nat) (k : Nat) : List Nat :=
  ((((chunksOf 8192 body).filter (fun c => !c.isEmpty)).take k).flatten)

/-- The outcome of one `download_file` call: its returned result, the
filesystem afterwards, and the number of network requests issued. -/
structure DLOutcome : Type where
  result : DLResult
  fs : FS
  netCalls : Nat

/-- Lines 40–61 of the source, `download_file(url, filename, skip_if_exists)`:
skip when the destination exists, otherwise issue one GET; on status 200
write the body in 8192-byte chunks (overwriting), on any other status or any
exception return the failed result. Every branch returns — no exception
propagates out. -/
def download_file (net : Net) (fs : FS) (url filename : String)
    (skip_if_exists : Bool) : DLOutcome :=
  let filepath := filepathOf filename
  if skip_if_exists && (fs filepath).isSome then
    ⟨DLResult.fileExists, fs, 0⟩
  else
    match net url with
    | NetBehavior.resp status body =>
      if status = 200 then
        ⟨DLResult.downloaded, fsUpdate fs filepath (writtenContent body), 1⟩
      else
        ⟨DLResult.failed, fs, 1⟩
    | NetBehavior.exnDuringGet => ⟨DLResult.failed, fs, 1⟩
    | NetBehavior.exnDuringWrite body k =>
      ⟨DLResult.failed, fsUpdate fs filepath (truncatedContent body k), 1⟩

/-- The state threaded through the download loop (lines 66–74 of the
source): the filesystem, the `downloaded_files` set, and two observation
logs — the tasks for which an actual GET was issued, and the tasks passed
to `download_file` at all. -/
structure LoopState : Type where
  fs : FS
  downloaded : Finset String
  netLog : List (String × String)
  fetchLog : List (String × String)

/-- One iteration of the loop on lines 68–74 of the source: skip the task if
its filename is already in `downloaded_files`, otherwise call
`download_file` and record the filename on `'exists'` or `True`. -/
def stepTask (net : Net) (s : LoopState) (task : String × String) : LoopState :=
  if task.2 ∈ s.downloaded then s
  else
    let o := download_file net s.fs task.1 task.2 true
    { fs := o.fs
      downloaded :=
        if o.result = DLResult.fileExists ∨ o.result = DLResult.downloaded then
          insert task.2 s.downloaded
        else s.downloaded
      netLog := s.netLog ++ (if o.netCalls = 0 then [] else [task])
      fetchLog := s.fetchLog ++ [task] }

/-- The whole download loop: fold `stepTask` over a task list. -/
def runTasks (net : Net) (s : LoopState) (tasks : List (String × String)) : LoopState :=
  tasks.foldl (stepTask net) s

/-- The state at line 66 of the source: `downloaded_files = set()`, empty
logs, and whatever filesystem the run starts from. -/
def initState (fs : FS) : LoopState :=
  ⟨fs, ∅, [], []⟩

/-- One full run of the script's download loop over `files_to_download`,
from an empty `downloaded_files` set and initial filesystem `fs0`. -/
def runScript (net : Net) (fs0 : FS) : LoopState :=
  runTasks net (initState fs0) files_to_download

/-- The final one-line summary printed by lines 76–82 of the source, with
the printed data kept symbolic: either the completion message with the count
of files obtained, or the set of missing filenames (joined with commas, in
unspecified set-iteration order, by the source). -/
inductive Summary : Type
  | complete (count : Nat)
  | missing (files : Finset String)
deriving DecidableEq

/-- Lines 78–82 of the source: compare the sizes of the two sets; on equal
sizes print the completion message with the number of downloaded files,
otherwise print `expected_files - downloaded_files`. -/
def summary (downloaded expected : Finset String) : Summary :=
  if downloaded.card = expected.card then Summary.complete downloaded.card
  else Summary.missing (expected \ downloaded)

/-- The summary the script prints for a given network and initial filesystem. -/
def scriptSummary (net : Net) (fs0 : FS) : Summary :=
  summary (runScript net fs0).downloaded expected_files

/-- A network on which no URL faults part way through the chunked write
(the situation §7 of the spec flags as leaving a truncated file). -/
def noWriteFault (net : Net) : Prop :=
  ∀ u body k, net u ≠ NetBehavior.exnDuringWrite body k

/-- A URL whose GET never yields a full status-200 response. -/
def netFails (net : Net) (u : String) : Prop :=
  ∀ body, net u ≠ NetBehavior.resp 200 body

/-! ## Basic lemmas about the chunked write -/

theorem chunksOfAux_flatten (n : Nat) (hn : 0 < n) :
    ∀ fuel l, l.length ≤ fuel →
      ((chunksOfAux fuel n l).filter (fun c => !c.isEmpty)).flatten = l := by
  intro fuel
  induction fuel with
  | zero =>
    intro l hl
    have hnil : l = [] := List.eq_nil_of_length_eq_zero (Nat.le_zero.mp hl)
    subst hnil
    simp [chunksOfAux]
  | succ fuel ih =>
    intro l hl
    match l with
    | [] => simp [chunksOfAux]
    | a :: t =>
      have hne : n ≠ 0 := Nat.pos_iff_ne_zero.mp hn
      have hstep : chunksOfAux (fuel + 1) n (a :: t) =
          (a :: t).take n :: chunksOfAux fuel n ((a :: t).drop n) := by
        simp [chunksOfAux, hne]
      have htake : ((a :: t).take n).isEmpty = false := by
        cases n with
        | zero => exact absurd rfl hne
        | succ m => simp [List.take, List.isEmpty]
      rw [hstep, List.filter_cons, htake]
      simp only [Bool.not_false, if_pos]
      rw [List.flatten_cons, ih ((a :: t).drop n) (by simp at hl ⊢; omega)]
      exact List.take_append_drop n (a :: t)

theorem writtenContent_eq (body : List Nat) : writtenContent body = body :=
  chunksOfAux_flatten 8192 (by norm_num) body.length body (Nat.le_refl _)

/-! ## Basic lemmas about paths and the filesystem -/

theorem filepathOf_injective {f g : String} (h : filepathOf f = filepathOf g) :
    f = g := by
  unfold filepathOf at h
  have hdata := congrArg String.data h
  simp only [String.data_append] at hdata
  exact String.ext (List.append_cancel_left hdata)

theorem fsUpdate_same (fs : FS) (p : String) (v : List Nat) :
    fsUpdate fs p v p = some v := by
  simp [fsUpdate]

theorem fsUpdate_other (fs : FS) (p q : String) (v : List Nat) (h : q ≠ p) :
    fsUpdate fs p v q = fs q := by
  simp [fsUpdate, h]

/-! ## Case lemmas for `download_file` -/

theorem download_file_of_exists (net : Net) (fs : FS) (url filename : String)
    (h : (fs (filepathOf filename)).isSome = true) :
    download_file net fs url filename true =
      ⟨DLResult.fileExists, fs, 0⟩ := by
  simp [download_file, h]

theorem download_file_not_skipped (net : Net) (fs : FS) (url filename : String)
    (skip : Bool) (h : skip = false ∨ fs (filepathOf filename) = none) :
    download_file net fs url filename skip =
      (match net url with
       | NetBehavior.resp status body =>
         if status = 200 then
           ⟨DLResult.downloaded,
             fsUpdate fs (filepathOf filename) (writtenContent body), 1⟩
         else ⟨DLResult.failed, fs, 1⟩
       | NetBehavior.exnDuringGet => ⟨DLResult.failed, fs, 1⟩
       | NetBehavior.exnDuringWrite body k =>
         ⟨DLResult.failed,
           fsUpdate fs (filepathOf filename) (truncatedContent body k), 1⟩) := by
  have hcond : (skip && (fs (filepathOf filename)).isSome) = false := by
    rcases h with h | h
    · simp [h]
    · simp [h]
  simp [download_file, hcond]

/-! ## Basic lemmas about the loop -/

theorem runTasks_nil (net : Net) (s : LoopState) : runTasks net s [] = s := rfl

theorem runTasks_cons (net : Net) (s : LoopState) (t : String × String)
    (T : List (String × String)) :
    runTasks net s (t :: T) = runTasks net (stepTask net s t) T := rfl

theorem runTasks_append (net : Net) (s : LoopState)
    (T₁ T₂ : List (String × String)) :
    runTasks net s (T₁ ++ T₂) = runTasks net (runTasks net s T₁) T₂ := by
  unfold runTasks
  exact List.foldl_append _ _ _ _

theorem stepTask_of_mem (net : Net) (s : LoopState) (t : String × String)
    (h : t.2 ∈ s.downloaded) : stepTask net s t = s := by
  simp [stepTask, h]

theorem stepTask_of_not_mem (net : Net) (s : LoopState) (t : String × String)
    (h : t.2 ∉ s.downloaded) :
    stepTask net s t =
      { fs := (download_file net s.fs t.1 t.2 true).fs
        downloaded :=
          if (download_file net s.fs t.1 t.2 true).result = DLResult.fileExists ∨
              (download_file net s.fs t.1 t.2 true).result = DLResult.downloaded then
            insert t.2 s.downloaded
          else s.downloaded
        netLog := s.netLog ++
          (if (download_file net s.fs t.1 t.2 true).netCalls = 0 then [] else [t])
        fetchLog := s.fetchLog ++ [t] } := by
  simp [stepTask, h]

theorem skip_condition_false (fs : FS) (filename : String) (skip : Bool)
    (hc : ¬((skip && (fs (filepathOf filename)).isSome) = true)) :
    skip = false ∨ fs (filepathOf filename) = none := by
  cases hskip : skip
  · exact Or.inl rfl
  · right
    cases hfs : fs (filepathOf filename)
    · rfl
    · exact absurd (by simp [hskip, hfs]) hc

theorem download_file_resp200 (net : Net) (fs : FS) (url filename : String)
    (skip : Bool) (body : List Nat)
    (h : skip = false ∨ fs (filepathOf filename) = none)
    (hnet : net url = NetBehavior.resp 200 body) :
    download_file net fs url filename skip =
      ⟨DLResult.downloaded, fsUpdate fs (filepathOf filename) (writtenContent body), 1⟩ := by
  rw [download_file_not_skipped net fs url filename skip h, hnet]
  rfl

theorem download_file_respNot200 (net : Net) (fs : FS) (url filename : String)
    (skip : Bool) (status : Nat) (body : List Nat)
    (h : skip = false ∨ fs (filepathOf filename) = none)
    (hnet : net url = NetBehavior.resp status body) (hst : status ≠ 200) :
    download_file net fs url filename skip = ⟨DLResult.failed, fs, 1⟩ := by
  rw [download_file_not_skipped net fs url filename skip h, hnet]
  simp [hst]

theorem download_file_exnGet (net : Net) (fs : FS) (url filename : String)
    (skip : Bool)
    (h : skip = false ∨ fs (filepathOf filename) = none)
    (hnet : net url = NetBehavior.exnDuringGet) :
    download_file net fs url filename skip = ⟨DLResult.failed, fs, 1⟩ := by
  rw [download_file_not_skipped net fs url filename skip h, hnet]

theorem download_file_exnWrite (net : Net) (fs : FS) (url filename : String)
    (skip : Bool) (body : List Nat) (k : Nat)
    (h : skip = false ∨ fs (filepathOf filename) = none)
    (hnet : net url = NetBehavior.exnDuringWrite body k) :
    download_file net fs url filename skip =
      ⟨DLResult.failed, fsUpdate fs (filepathOf filename) (truncatedContent body k), 1⟩ := by
  rw [download_file_not_skipped net fs url filename skip h, hnet]

theorem download_file_of_skip (net : Net) (fs : FS) (url filename : String)
    (skip : Bool) (hc : (skip && (fs (filepathOf filename)).isSome) = true) :
    download_file net fs url filename skip = ⟨DLResult.fileExists, fs, 0⟩ := by
  simp [download_file, hc]

/-! ## Frame and preservation lemmas for `download_file` -/

theorem download_file_fs_frame (net : Net) (fs : FS) (url filename : String)
    (skip : Bool) (p : String) (hp : p ≠ filepathOf filename) :
    (download_file net fs url filename skip).fs p = fs p := by
  by_cases hc : (skip && (fs (filepathOf filename)).isSome) = true
  · simp [download_file, hc]
  · cases hnet : net url with
    | resp st body =>
      by_cases hst : st = 200
      · subst hst
        simp [download_file, hc, hnet, fsUpdate_other _ _ _ _ hp]
      · simp [download_file, hc, hnet, hst]
    | exnDuringGet => simp [download_file, hc, hnet]
    | exnDuringWrite body k =>
      simp [download_file, hc, hnet, fsUpdate_other _ _ _ _ hp]

theorem download_file_fs_isSome (net : Net) (fs : FS) (url filename : String)
    (skip : Bool) (p : String) (h : (fs p).isSome = true) :
    ((download_file net fs url filename skip).fs p).isSome = true := by
  by_cases hp : p = filepathOf filename
  · subst hp
    by_cases hc : (skip && (fs (filepathOf filename)).isSome) = true
    · simpa [download_file, hc] using h
    · cases hnet : net url with
      | resp st body =>
        by_cases hst : st = 200
        · subst hst
          simp [download_file, hc, hnet, fsUpdate_same]
        · simpa [download_file, hc, hnet, hst] using h
      | exnDuringGet => simpa [download_file, hc, hnet] using h
      | exnDuringWrite body k => simp [download_file, hc, hnet, fsUpdate_same]
  · rw [download_file_fs_frame net fs url filename skip p hp]
    exact h

theorem download_file_success_isSome (net : Net) (fs : FS)
    (url filename : String) (skip : Bool)
    (hres : (download_file net fs url filename skip).result = DLResult.fileExists ∨
      (download_file net fs url filename skip).result = DLResult.downloaded) :
    ((download_file net fs url filename skip).fs (filepathOf filename)).isSome
      = true := by
  by_cases hc : (skip && (fs (filepathOf filename)).isSome) = true
  · have hex : (fs (filepathOf filename)).isSome = true := by
      simp only [Bool.and_eq_true] at hc
      exact hc.2
    simpa [download_file, hc] using hex
  · cases hnet : net url with
    | resp st body =>
      by_cases hst : st = 200
      · subst hst
        simp [download_file, hc, hnet, fsUpdate_same]
      · exfalso
        simp [download_file, hc, hnet, hst] at hres
    | exnDuringGet =>
      exfalso
      simp [download_file, hc, hnet] at hres
    | exnDuringWrite body k =>
      exfalso
      simp [download_file, hc, hnet] at hres

/-! ## Monotonicity of the downloaded set (lines 66–74 of the source) -/

theorem downloaded_subset_stepTask (net : Net) (s : LoopState)
    (t : String × String) : s.downloaded ⊆ (stepTask net s t).downloaded := by
  by_cases h : t.2 ∈ s.downloaded
  · rw [stepTask_of_mem net s t h]
  · rw [stepTask_of_not_mem net s t h]
    dsimp only
    split
    · exact Finset.subset_insert _ _
    · exact Finset.Subset.refl _

theorem downloaded_subset_runTasks (net : Net) (T : List (String × String)) :
    ∀ s : LoopState, s.downloaded ⊆ (runTasks net s T).downloaded := by
  induction T with
  | nil => intro s; rw [runTasks_nil]
  | cons t T ih =>
    intro s
    rw [runTasks_cons]
    exact (downloaded_subset_stepTask net s t).trans (ih _)

theorem stepTask_downloaded_subset (net : Net) (s : LoopState)
    (t : String × String) :
    (stepTask net s t).downloaded ⊆ insert t.2 s.downloaded := by
  by_cases h : t.2 ∈ s.downloaded
  · rw [stepTask_of_mem net s t h]
    exact Finset.subset_insert _ _
  · rw [stepTask_of_not_mem net s t h]
    dsimp only
    split
    · exact Finset.Subset.refl _
    · exact Finset.subset_insert _ _

theorem downloaded_runTasks_subset (net : Net) (T : List (String × String)) :
    ∀ s : LoopState,
      (runTasks net s T).downloaded ⊆ s.downloaded ∪ (T.map Prod.snd).toFinset := by
  induction T with
  | nil => intro s; simp [runTasks_nil]
  | cons t T ih =>
    intro s
    rw [runTasks_cons]
    refine (ih _).trans ?_
    simp only [List.map_cons, List.toFinset_cons]
    intro f hf
    rcases Finset.mem_union.mp hf with hf | hf
    · rcases Finset.mem_insert.mp (stepTask_downloaded_subset net s t hf) with h | h
      · exact Finset.mem_union_right _ (h ▸ Finset.mem_insert_self _ _)
      · exact Finset.mem_union_left _ h
    · exact Finset.mem_union_right _ (Finset.mem_insert_of_mem hf)

/-! ## Frame and preservation lemmas for one loop step -/

theorem stepTask_fs_frame (net : Net) (s : LoopState) (t : String × String)
    (p : String) (hp : p ≠ filepathOf t.2) :
    (stepTask net s t).fs p = s.fs p := by
  by_cases h : t.2 ∈ s.downloaded
  · rw [stepTask_of_mem net s t h]
  · rw [stepTask_of_not_mem net s t h]
    exact download_file_fs_frame net s.fs t.1 t.2 true p hp

theorem stepTask_fs_isSome (net : Net) (s : LoopState) (t : String × String)
    (p : String) (h : (s.fs p).isSome = true) :
    ((stepTask net s t).fs p).isSome = true := by
  by_cases hm : t.2 ∈ s.downloaded
  · rw [stepTask_of_mem net s t hm]; exact h
  · rw [stepTask_of_not_mem net s t hm]
    exact download_file_fs_isSome net s.fs t.1 t.2 true p h

/-- Once a filename is in the downloaded set, later tasks never pass it to
`download_file` again: the fetch log's entries for that filename are frozen. -/
theorem fetchLog_frozen (net : Net) (T : List (String × String)) :
    ∀ (s : LoopState) (f : String), f ∈ s.downloaded →
      (runTasks net s T).fetchLog.filter (fun t => t.2 == f) =
        s.fetchLog.filter (fun t => t.2 == f) := by
  induction T with
  | nil => intro s f _; rw [runTasks_nil]
  | cons t T ih =>
    intro s f hf
    rw [runTasks_cons, ih _ f (downloaded_subset_stepTask net s t hf)]
    by_cases h : t.2 ∈ s.downloaded
    · rw [stepTask_of_mem net s t h]
    · rw [stepTask_of_not_mem net s t h]
      dsimp only
      have hne : (t.2 == f) = false := by
        simp only [beq_eq_false_iff_ne, ne_eq]
        exact fun he => h (he ▸ hf)
      simp [List.filter_append, hne]

/-- If some task in `T` pairs URL `u₀` with filename `f` and the GET of `u₀`
yields a full status-200 response, then `f` ends up in the downloaded set. -/
theorem task200_mem_downloaded (net : Net) (T : List (String × String)) :
    ∀ (s : LoopState) (u₀ f : String) (body : List Nat),
      (u₀, f) ∈ T → net u₀ = NetBehavior.resp 200 body →
      f ∈ (runTasks net s T).downloaded := by
  induction T with
  | nil => intro s u₀ f body h _; cases h
  | cons t T ih =>
    intro s u₀ f body hmem hnet
    rw [runTasks_cons]
    rcases List.mem_cons.mp hmem with heq | hmem'
    · obtain ⟨tu, tf⟩ := t
      obtain ⟨hu, hf⟩ := Prod.mk.injEq .. ▸ heq
      subst hu; subst hf
      apply downloaded_subset_runTasks net T
      by_cases hm : f ∈ s.downloaded
      · rw [stepTask_of_mem net s (u₀, f) hm]; exact hm
      · rw [stepTask_of_not_mem net s (u₀, f) hm]
        dsimp only
        by_cases hex : (s.fs (filepathOf f)).isSome = true
        · rw [download_file_of_exists net s.fs u₀ f hex]
          simp
        · have hnone : s.fs (filepathOf f) = none :=
            Option.not_isSome_iff_eq_none.mp (by simpa using hex)
          rw [download_file_not_skipped net s.fs u₀ f true (Or.inr hnone), hnet]
          simp
    · exact ih _ u₀ f body hmem' hnet

/-- If some task in `T` has filename `f` and the file at `filepathOf f` is
present when the run starts, then `f` ends up in the downloaded set. -/
theorem file_mem_downloaded (net : Net) (T : List (String × String)) :
    ∀ (s : LoopState) (f : String), (∃ t ∈ T, t.2 = f) →
      (s.fs (filepathOf f)).isSome = true →
      f ∈ (runTasks net s T).downloaded := by
  induction T with
  | nil => intro s f h _; simp at h
  | cons t T ih =>
    intro s f hex hfs
    rw [runTasks_cons]
    obtain ⟨t₀, ht₀, hft₀⟩ := hex
    rcases List.mem_cons.mp ht₀ with heq | hmem'
    · subst heq
      subst hft₀
      apply downloaded_subset_runTasks net T
      by_cases hm : t₀.2 ∈ s.downloaded
      · rw [stepTask_of_mem net s t₀ hm]; exact hm
      · rw [stepTask_of_not_mem net s t₀ hm]
        dsimp only
        rw [download_file_of_exists net s.fs t₀.1 t₀.2 hfs]
        simp
    · exact ih _ f ⟨t₀, hmem', hft₀⟩ (stepTask_fs_isSome net s t (filepathOf f) hfs)

/-- Invariant: every filename in the downloaded set has its file present on
disk (whether it was found there or just written). -/
theorem downloaded_fs_isSome_stepTask (net : Net) (s : LoopState)
    (t : String × String)
    (h : ∀ f ∈ s.downloaded, (s.fs (filepathOf f)).isSome = true) :
    ∀ f ∈ (stepTask net s t).downloaded,
      ((stepTask net s t).fs (filepathOf f)).isSome = true := by
  intro f hf
  by_cases hm : t.2 ∈ s.downloaded
  · rw [stepTask_of_mem net s t hm] at hf ⊢
    exact h f hf
  · rw [stepTask_of_not_mem net s t hm] at hf ⊢
    dsimp only at hf ⊢
    by_cases hres : (download_file net s.fs t.1 t.2 true).result = DLResult.fileExists ∨
        (download_file net s.fs t.1 t.2 true).result = DLResult.downloaded
    · rw [if_pos hres] at hf
      rcases Finset.mem_insert.mp hf with hft | hfs
      · subst hft
        exact download_file_success_isSome net s.fs t.1 t.2 true hres
      · exact download_file_fs_isSome net s.fs t.1 t.2 true _ (h f hfs)
    · rw [if_neg hres] at hf
      exact download_file_fs_isSome net s.fs t.1 t.2 true _ (h f hf)

/-- A GET that yields neither a full status-200 response nor a mid-write
fault leaves `download_file` with the failed result, the filesystem
untouched, and one network call. -/
theorem download_file_failed_of_netFails (net : Net) (fs : FS)
    (url filename : String)
    (hnone : fs (filepathOf filename) = none)
    (hfail : netFails net url)
    (hnw : ∀ body k, net url ≠ NetBehavior.exnDuringWrite body k) :
    download_file net fs url filename true = ⟨DLResult.failed, fs, 1⟩ := by
  rw [download_file_not_skipped net fs url filename true (Or.inr hnone)]
  cases hnet : net url with
  | resp st body =>
    have hst : st ≠ 200 := fun he => hfail body (he ▸ hnet)
    simp [hst]
  | exnDuringGet => rfl
  | exnDuringWrite body k => exact absurd hnet (hnw body k)

/-- If `f`'s file is absent, `f` is not yet downloaded, and every candidate
URL paired with `f` fails, then after the run `f` is still not downloaded
and its file is still absent (given no URL faults mid-write). -/
theorem not_downloaded_stays (net : Net) (hWF : noWriteFault net)
    (T : List (String × String)) :
    ∀ (s : LoopState) (f : String),
      s.fs (filepathOf f) = none → f ∉ s.downloaded →
      (∀ u, (u, f) ∈ T → netFails net u) →
      f ∉ (runTasks net s T).downloaded ∧
        (runTasks net s T).fs (filepathOf f) = none := by
  induction T with
  | nil =>
    intro s f h1 h2 _
    rw [runTasks_nil]
    exact ⟨h2, h1⟩
  | cons t T ih =>
    intro s f h1 h2 hfails
    obtain ⟨tu, tf⟩ := t
    rw [runTasks_cons]
    have hstep : f ∉ (stepTask net s (tu, tf)).downloaded ∧
        (stepTask net s (tu, tf)).fs (filepathOf f) = none := by
      by_cases hm : tf ∈ s.downloaded
      · rw [stepTask_of_mem net s (tu, tf) hm]
        exact ⟨h2, h1⟩
      · by_cases hft : tf = f
        · subst hft
          have hdf : download_file net s.fs tu tf true = ⟨DLResult.failed, s.fs, 1⟩ :=
            download_file_failed_of_netFails net s.fs tu tf h1
              (hfails tu (List.mem_cons_self _ _)) (fun b k => hWF tu b k)
          rw [stepTask_of_not_mem net s (tu, tf) hm]
          refine ⟨?_, ?_⟩
          · simpa [hdf] using h2
          · simpa [hdf] using h1
        · refine ⟨?_, ?_⟩
          · intro hf
            rcases Finset.mem_insert.mp
                (stepTask_downloaded_subset net s (tu, tf) hf) with hcase | hcase
            · exact hft hcase.symm
            · exact h2 hcase
          · rw [stepTask_fs_frame net s (tu, tf) (filepathOf f)
              (fun he => hft (filepathOf_injective he).symm)]
            exact h1
    exact ih _ f hstep.2 hstep.1 (fun u hu => hfails u (List.mem_cons_of_mem _ hu))

/-- If `f`'s file is present when the run starts, the run never issues a
network request for a task with filename `f`: every entry the run appends to
the net log has a different filename. -/
theorem netLog_no_calls (net : Net) (T : List (String × String)) :
    ∀ (s : LoopState) (f : String), (s.fs (filepathOf f)).isSome = true →
      ∀ t ∈ (runTasks net s T).netLog, t ∈ s.netLog ∨ t.2 ≠ f := by
  induction T with
  | nil =>
    intro s f _ t ht
    rw [runTasks_nil] at ht
    exact Or.inl ht
  | cons t0 T ih =>
    intro s f hfs t ht
    rw [runTasks_cons] at ht
    rcases ih _ f (stepTask_fs_isSome net s t0 _ hfs) t ht with h | h
    · by_cases hm : t0.2 ∈ s.downloaded
      · rw [stepTask_of_mem net s t0 hm] at h
        exact Or.inl h
      · rw [stepTask_of_not_mem net s t0 hm] at h
        dsimp only at h
        rcases List.mem_append.mp h with h | h
        · exact Or.inl h
        · by_cases hft : t0.2 = f
          · exfalso
            have hex : (s.fs (filepathOf t0.2)).isSome = true := by
              rw [hft]; exact hfs
            rw [download_file_of_exists net s.fs t0.1 t0.2 hex] at h
            simp at h
          · right
            have ht0 : t = t0 := by
              revert h
              split
              · intro h; exact absurd h (List.not_mem_nil t)
              · intro h; simpa using h
            rw [ht0]
            exact hft
    · exact Or.inr h

theorem downloaded_fs_isSome_runTasks (net : Net) (T : List (String × String)) :
    ∀ s : LoopState,
      (∀ f ∈ s.downloaded, (s.fs (filepathOf f)).isSome = true) →
      ∀ f ∈ (runTasks net s T).downloaded,
        ((runTasks net s T).fs (filepathOf f)).isSome = true := by
  induction T with
  | nil => intro s h; rw [runTasks_nil]; exact h
  | cons t T ih =>
    intro s h
    rw [runTasks_cons]
    exact ih _ (downloaded_fs_isSome_stepTask net s t h)

/-! ## Run-level lemmas, generic in the task list -/

theorem mem_downloaded_has_task (net : Net) (T : List (String × String))
    (fs0 : FS) (f : String)
    (hf : f ∈ (runTasks net (initState fs0) T).downloaded) :
    ∃ t ∈ T, t.2 = f := by
  have h := downloaded_runTasks_subset net T (initState fs0) hf
  have h2 : f ∈ (T.map Prod.snd).toFinset := by
    simpa [initState] using h
  rcases List.mem_map.mp (List.mem_toFinset.mp h2) with ⟨t, ht, hft⟩
  exact ⟨t, ht, hft⟩

theorem run_downloaded_isSome (net : Net) (T : List (String × String))
    (fs0 : FS) (f : String)
    (hf : f ∈ (runTasks net (initState fs0) T).downloaded) :
    ((runTasks net (initState fs0) T).fs (filepathOf f)).isSome = true :=
  downloaded_fs_isSome_runTasks net T (initState fs0)
    (by simp [initState]) f hf

/-- Every file obtained by a first run is (for any network) obtained again
by a second run over the resulting directory. -/
theorem second_run_superset (net net2 : Net) (T : List (String × String))
    (fs0 : FS) :
    (runTasks net (initState fs0) T).downloaded ⊆
      (runTasks net2 (initState (runTasks net (initState fs0) T).fs) T).downloaded := by
  intro f hf
  obtain ⟨t, ht, hft⟩ := mem_downloaded_has_task net T fs0 f hf
  exact file_mem_downloaded net2 T (initState (runTasks net (initState fs0) T).fs)
    f ⟨t, ht, hft⟩ (run_downloaded_isSome net T fs0 f hf)

/-- If no URL faults mid-write, a second run over the same directory ends
with exactly the same downloaded set as the first. -/
theorem second_run_eq (net : Net) (T : List (String × String)) (fs0 : FS)
    (hWF : noWriteFault net) :
    (runTasks net (initState (runTasks net (initState fs0) T).fs) T).downloaded =
      (runTasks net (initState fs0) T).downloaded := by
  apply Finset.Subset.antisymm
  · intro f hf2
    by_contra hf1
    obtain ⟨t, ht, hft⟩ :=
      mem_downloaded_has_task net T (runTasks net (initState fs0) T).fs f hf2
    have hfails : ∀ u, (u, f) ∈ T → netFails net u := by
      intro u hu body hnet
      exact hf1 (task200_mem_downloaded net T (initState fs0) u f body hu hnet)
    have hfs0 : fs0 (filepathOf f) = none := by
      by_contra hne
      have hsome : (fs0 (filepathOf f)).isSome = true :=
        Option.ne_none_iff_isSome.mp hne
      exact hf1 (file_mem_downloaded net T (initState fs0) f ⟨t, ht, hft⟩ hsome)
    have h1 := not_downloaded_stays net hWF T (initState fs0)
      f hfs0 (by simp [initState]) hfails
    have h2 := not_downloaded_stays net hWF T
      (initState (runTasks net (initState fs0) T).fs) f h1.2
      (by simp [initState]) hfails
    exact h2.1 hf2
  · exact second_run_superset net net T fs0

/-- A second run (under any network) never issues a network request for a
filename the first run obtained: its file is present, so the existence check
short-circuits every such task. -/
theorem second_run_no_calls (net net2 : Net) (T : List (String × String))
    (fs0 : FS) (f : String)
    (hf : f ∈ (runTasks net (initState fs0) T).downloaded) :
    ∀ t ∈ (runTasks net2 (initState (runTasks net (initState fs0) T).fs) T).netLog,
      t.2 ≠ f := by
  intro t ht
  rcases netLog_no_calls net2 T (initState (runTasks net (initState fs0) T).fs) f
      (run_downloaded_isSome net T fs0 f hf) t ht with h | h
  · exact absurd h (List.not_mem_nil t)
  · exact h

theorem run_downloaded_subset_filenames (net : Net) (T : List (String × String))
    (fs0 : FS) :
    (runTasks net (initState fs0) T).downloaded ⊆ (T.map Prod.snd).toFinset := by
  intro f hf
  simpa [initState] using downloaded_runTasks_subset net T (initState fs0) hf

/-! ## The claims -/

/-- C2: when `skip_if_exists` is true and the destination file already
exists, `download_file` returns the exists-result, leaves the filesystem
untouched, and issues zero network requests. -/
theorem c2_skip_no_network (net : Net) (fs : FS) (url filename : String)
    (h : (fs (filepathOf filename)).isSome = true) :
    download_file net fs url filename true = ⟨DLResult.fileExists, fs, 0⟩ :=
  download_file_of_exists net fs url filename h

theorem c2_witness :
    ((((fun _ => some []) : FS) (filepathOf "meta.lcc")).isSome = true) ∧
    download_file ((fun _ => NetBehavior.exnDuringGet) : Net)
        ((fun _ => some []) : FS) "u" "meta.lcc" true =
      ⟨DLResult.fileExists, ((fun _ => some []) : FS), 0⟩ :=
  ⟨rfl, c2_skip_no_network ((fun _ => NetBehavior.exnDuringGet) : Net)
    ((fun _ => some []) : FS) "u" "meta.lcc" rfl⟩

/-- C3: whenever a network request is actually issued (the call is not
short-circuited by the existence check), a non-success status, an exception
during the GET, and an exception during the chunked write all yield the
failed result; `download_file` is a total function in the embedding, so no
exception propagates out of it. -/
theorem c3_all_faults_failed (net : Net) (fs : FS) (url filename : String)
    (skip : Bool) (h : skip = false ∨ fs (filepathOf filename) = none) :
    (∀ status body, net url = NetBehavior.resp status body → status ≠ 200 →
      download_file net fs url filename skip = ⟨DLResult.failed, fs, 1⟩) ∧
    (net url = NetBehavior.exnDuringGet →
      download_file net fs url filename skip = ⟨DLResult.failed, fs, 1⟩) ∧
    (∀ body k, net url = NetBehavior.exnDuringWrite body k →
      (download_file net fs url filename skip).result = DLResult.failed) :=
  ⟨fun status body hnet hst =>
      download_file_respNot200 net fs url filename skip status body h hnet hst,
    fun hnet => download_file_exnGet net fs url filename skip h hnet,
    fun body k hnet => by
      rw [download_file_exnWrite net fs url filename skip body k h hnet]⟩

theorem c3_witness :
    (((fun _ => none) : FS) (filepathOf "environment.bin") = none) ∧
    download_file ((fun _ => NetBehavior.resp 404 []) : Net)
        ((fun _ => none) : FS) "u" "environment.bin" true =
      ⟨DLResult.failed, ((fun _ => none) : FS), 1⟩ :=
  ⟨rfl,
    (c3_all_faults_failed ((fun _ => NetBehavior.resp 404 []) : Net)
      ((fun _ => none) : FS) "u" "environment.bin" true (Or.inr rfl)).1
      404 [] rfl (by decide)⟩

/-- C5: when the GET actually happens and yields status 200 with body
`body`, `download_file` overwrites `output_dir/filename` with the flattened
nonempty 8192-byte chunks of `body`, that flattening is exactly `body`
(chunked writing corrupts nothing), it returns the downloaded result with
one network call, and no other path changes. -/
theorem c5_success_writes_exact_body (net : Net) (fs : FS)
    (url filename : String) (skip : Bool) (body : List Nat)
    (h : skip = false ∨ fs (filepathOf filename) = none)
    (hnet : net url = NetBehavior.resp 200 body) :
    download_file net fs url filename skip =
      ⟨DLResult.downloaded,
        fsUpdate fs (filepathOf filename) (writtenContent body), 1⟩ ∧
    writtenContent body = body ∧
    (download_file net fs url filename skip).fs (filepathOf filename) = some body ∧
    (∀ p, p ≠ filepathOf filename →
      (download_file net fs url filename skip).fs p = fs p) := by
  have hd := download_file_resp200 net fs url filename skip body h hnet
  refine ⟨hd, writtenContent_eq body, ?_, ?_⟩
  · rw [hd]
    show fsUpdate fs (filepathOf filename) (writtenContent body) (filepathOf filename)
      = some body
    rw [fsUpdate_same, writtenContent_eq]
  · intro p hp
    rw [hd]
    exact fsUpdate_other fs (filepathOf filename) p (writtenContent body) hp

theorem c5_witness :
    (((fun _ => none) : FS) (filepathOf "data.bin") = none) ∧
    (download_file ((fun _ => NetBehavior.resp 200 [7, 8]) : Net)
      ((fun _ => none) : FS) "u" "data.bin" true).fs (filepathOf "data.bin")
      = some [7, 8] := by
  have h := c5_success_writes_exact_body ((fun _ => NetBehavior.resp 200 [7, 8]) : Net)
    ((fun _ => none) : FS) "u" "data.bin" true [7, 8] (Or.inr rfl) rfl
  exact ⟨rfl, h.2.2.1⟩

/-- C4: once a filename is in the downloaded set after some prefix of the
task list (a task for it returned the exists- or downloaded-result), the
remaining tasks never call `download_file` for that filename again: the
fetch log's entries for that filename do not change over the rest of the
run, so no further candidate URL for it is attempted. -/
theorem c4_no_reattempt_after_success (net : Net) (fs0 : FS)
    (T₁ T₂ : List (String × String)) (f : String)
    (hf : f ∈ (runTasks net (initState fs0) T₁).downloaded) :
    (runTasks net (initState fs0) (T₁ ++ T₂)).fetchLog.filter (fun t => t.2 == f) =
      (runTasks net (initState fs0) T₁).fetchLog.filter (fun t => t.2 == f) := by
  rw [runTasks_append]
  exact fetchLog_frozen net T₂ _ f hf

theorem c4_witness :
    ("f" ∈ (runTasks ((fun _ => NetBehavior.exnDuringGet) : Net)
        (initState ((fun _ => some []) : FS)) [("u", "f")]).downloaded) ∧
    (runTasks ((fun _ => NetBehavior.exnDuringGet) : Net)
        (initState ((fun _ => some []) : FS))
        ([("u", "f")] ++ [("v", "f")])).fetchLog.filter (fun t => t.2 == "f") =
      (runTasks ((fun _ => NetBehavior.exnDuringGet) : Net)
        (initState ((fun _ => some []) : FS))
        [("u", "f")]).fetchLog.filter (fun t => t.2 == "f") := by
  have hf : "f" ∈ (runTasks ((fun _ => NetBehavior.exnDuringGet) : Net)
      (initState ((fun _ => some []) : FS)) [("u", "f")]).downloaded := by decide
  exact ⟨hf, c4_no_reattempt_after_success _ _ [("u", "f")] [("v", "f")] "f" hf⟩

/-- C7 as stated is false: a network fault part way through the chunked
write yields the failed result, yet the `open(filepath, 'wb')` that already
happened created the file — here the first chunk `[1]` of the body remains
on disk, so the filesystem is changed by a failed task. -/
theorem c7_counterexample :
    (download_file ((fun _ => NetBehavior.exnDuringWrite [1] 1) : Net)
      ((fun _ => none) : FS) "u" "f" true).result = DLResult.failed ∧
    (download_file ((fun _ => NetBehavior.exnDuringWrite [1] 1) : Net)
      ((fun _ => none) : FS) "u" "f" true).fs (filepathOf "f") = some [1] ∧
    ((fun _ => none) : FS) (filepathOf "f") = none := by
  refine ⟨rfl, ?_, rfl⟩
  decide

/-- C7 amended: on the exists-result and on a failed result caused by a
non-success status or an exception during the GET itself, the filesystem is
unchanged; on success exactly the one file `output_dir/filename` is created
or overwritten; a fault during the chunked write may leave a (possibly
truncated) file at `output_dir/filename`, but no other path is ever
touched. -/
theorem c7_frame_amended (net : Net) (fs : FS) (url filename : String)
    (skip : Bool) :
    ((download_file net fs url filename skip).result = DLResult.fileExists →
      (download_file net fs url filename skip).fs = fs) ∧
    (∀ status body, net url = NetBehavior.resp status body → status ≠ 200 →
      (download_file net fs url filename skip).fs = fs) ∧
    (net url = NetBehavior.exnDuringGet →
      (download_file net fs url filename skip).fs = fs) ∧
    (∀ body, net url = NetBehavior.resp 200 body →
      (skip = false ∨ fs (filepathOf filename) = none) →
      (download_file net fs url filename skip).fs (filepathOf filename)
        = some body) ∧
    (∀ p, p ≠ filepathOf filename →
      (download_file net fs url filename skip).fs p = fs p) := by
  refine ⟨?_, ?_, ?_, ?_, ?_⟩
  · intro hres
    by_cases hc : (skip && (fs (filepathOf filename)).isSome) = true
    · rw [download_file_of_skip net fs url filename skip hc]
    · exfalso
      have h := skip_condition_false fs filename skip hc
      cases hnet : net url with
      | resp st body =>
        by_cases hst : st = 200
        · subst hst
          rw [download_file_resp200 net fs url filename skip body h hnet] at hres
          exact DLResult.noConfusion hres
        · rw [download_file_respNot200 net fs url filename skip st body h hnet hst]
            at hres
          exact DLResult.noConfusion hres
      | exnDuringGet =>
        rw [download_file_exnGet net fs url filename skip h hnet] at hres
        exact DLResult.noConfusion hres
      | exnDuringWrite body k =>
        rw [download_file_exnWrite net fs url filename skip body k h hnet] at hres
        exact DLResult.noConfusion hres
  · intro status body hnet hst
    by_cases hc : (skip && (fs (filepathOf filename)).isSome) = true
    · rw [download_file_of_skip net fs url filename skip hc]
    · rw [download_file_respNot200 net fs url filename skip status body
        (skip_condition_false fs filename skip hc) hnet hst]
  · intro hnet
    by_cases hc : (skip && (fs (filepathOf filename)).isSome) = true
    · rw [download_file_of_skip net fs url filename skip hc]
    · rw [download_file_exnGet net fs url filename skip
        (skip_condition_false fs filename skip hc) hnet]
  · intro body hnet h
    rw [download_file_resp200 net fs url filename skip body h hnet]
    show fsUpdate fs (filepathOf filename) (writtenContent body) (filepathOf filename)
      = some body
    rw [fsUpdate_same, writtenContent_eq]
  · intro p hp
    exact download_file_fs_frame net fs url filename skip p hp

theorem c7_witness :
    ((download_file ((fun _ => NetBehavior.exnDuringGet) : Net)
      ((fun _ => some [3]) : FS) "u" "f" true).result = DLResult.fileExists) ∧
    (download_file ((fun _ => NetBehavior.exnDuringGet) : Net)
      ((fun _ => some [3]) : FS) "u" "f" true).fs = ((fun _ => some [3]) : FS) := by
  have hres : (download_file ((fun _ => NetBehavior.exnDuringGet) : Net)
      ((fun _ => some [3]) : FS) "u" "f" true).result = DLResult.fileExists := rfl
  exact ⟨hres, (c7_frame_amended ((fun _ => NetBehavior.exnDuringGet) : Net)
    ((fun _ => some [3]) : FS) "u" "f" true).1 hres⟩

/-- C6 as stated is false: with an empty initial directory and a network
that faults mid-write on the meta URL (and fails outright on every other
URL), the first run downloads nothing, but the truncated `meta.lcc` the
interrupted write left on disk satisfies the existence check of the second
run, whose downloaded set is therefore `{"meta.lcc"}` rather than `∅`. -/
theorem c6_counterexample :
    (runScript
        (fun u => if u = lcc_meta_url then NetBehavior.exnDuringWrite [1] 1
          else NetBehavior.exnDuringGet)
        (runScript
          (fun u => if u = lcc_meta_url then NetBehavior.exnDuringWrite [1] 1
            else NetBehavior.exnDuringGet)
          (fun _ => none)).fs).downloaded ≠
      (runScript
        (fun u => if u = lcc_meta_url then NetBehavior.exnDuringWrite [1] 1
          else NetBehavior.exnDuringGet)
        (fun _ => none)).downloaded := by
  decide

/-- C9: the task list is exactly the meta task followed by, for each of
`index.bin`, `data.bin`, `environment.bin` in order, one task per candidate
base URL in order, with URL the URL-join of base and filename; resolving
the joins gives the concrete seven-task list, and the expected set is the
four distinct filenames. -/
theorem c9_task_list :
    files_to_download =
      [(lcc_meta_url, "meta.lcc"),
       (urljoin "https://da9i2vj1xvtoc.cloudfront.net/lcc-model/showroom+level+2/"
         "index.bin", "index.bin"),
       (urljoin "https://da9i2vj1xvtoc.cloudfront.net/lcc-model/showroom+level+2/showroom2/"
         "index.bin", "index.bin"),
       (urljoin "https://da9i2vj1xvtoc.cloudfront.net/lcc-model/showroom+level+2/"
         "data.bin", "data.bin"),
       (urljoin "https://da9i2vj1xvtoc.cloudfront.net/lcc-model/showroom+level+2/showroom2/"
         "data.bin", "data.bin"),
       (urljoin "https://da9i2vj1xvtoc.cloudfront.net/lcc-model/showroom+level+2/"
         "environment.bin", "environment.bin"),
       (urljoin "https://da9i2vj1xvtoc.cloudfront.net/lcc-model/showroom+level+2/showroom2/"
         "environment.bin", "environment.bin")] ∧
    files_to_download =
      [(lcc_meta_url, "meta.lcc"),
       ("https://da9i2vj1xvtoc.cloudfront.net/lcc-model/showroom+level+2/index.bin",
         "index.bin"),
       ("https://da9i2vj1xvtoc.cloudfront.net/lcc-model/showroom+level+2/showroom2/index.bin",
         "index.bin"),
       ("https://da9i2vj1xvtoc.cloudfront.net/lcc-model/showroom+level+2/data.bin",
         "data.bin"),
       ("https://da9i2vj1xvtoc.cloudfront.net/lcc-model/showroom+level+2/showroom2/data.bin",
         "data.bin"),
       ("https://da9i2vj1xvtoc.cloudfront.net/lcc-model/showroom+level+2/environment.bin",
         "environment.bin"),
       ("https://da9i2vj1xvtoc.cloudfront.net/lcc-model/showroom+level+2/showroom2/environment.bin",
         "environment.bin")] ∧
    expected_files = {"meta.lcc", "index.bin", "data.bin", "environment.bin"} :=
  ⟨by decide, by decide, by decide⟩

/-- C8: the downloaded set grows monotonically: each loop step, and hence
any run of the loop, yields a downloaded set containing the one it started
from — no operation ever removes a filename. -/
theorem c8_downloaded_monotone (net : Net) (s : LoopState)
    (task : String × String) (T : List (String × String)) :
    s.downloaded ⊆ (stepTask net s task).downloaded ∧
    s.downloaded ⊆ (runTasks net s T).downloaded :=
  ⟨downloaded_subset_stepTask net s task, downloaded_subset_runTasks net T s⟩

attribute [irreducible] stepTask download_file

/-- C1: after all tasks are processed the script prints exactly one summary
line, and (because the downloaded set is always a subset of the expected
set, so the source's size comparison coincides with set equality) it is the
completion message with the count of files obtained precisely when the final
downloaded set equals the expected set, and otherwise the missing filenames
`expected_files \ downloaded` (joined with commas by the source). -/
theorem c1_summary_line (net : Net) (fs0 : FS) :
    scriptSummary net fs0 =
      if (runScript net fs0).downloaded = expected_files then
        Summary.complete (runScript net fs0).downloaded.card
      else
        Summary.missing (expected_files \ (runScript net fs0).downloaded) := by
  have hsub : (runScript net fs0).downloaded ⊆ expected_files := by
    unfold runScript expected_files
    exact run_downloaded_subset_filenames net files_to_download fs0
  unfold scriptSummary summary
  by_cases hcard : (runScript net fs0).downloaded.card = expected_files.card
  · have heq : (runScript net fs0).downloaded = expected_files :=
      Finset.eq_of_subset_of_card_le hsub (le_of_eq hcard.symm)
    rw [if_pos hcard, if_pos heq]
  · have hne : (runScript net fs0).downloaded ≠ expected_files :=
      fun he => hcard (by rw [he])
    rw [if_neg hcard, if_neg hne]

/-- C6 amended: a second run of the orchestrator over the same output
directory issues zero network requests for filenames obtained on the first
run — every such task is short-circuited by the existence check — with no
proviso; and, provided no URL faults part way through the chunked write
(the truncated-file gap §7 of the spec flags), the second run also ends
with exactly the same downloaded set as the first run. -/
theorem c6_idempotent_amended (net : Net) (fs0 : FS) :
    (∀ t ∈ (runScript net (runScript net fs0).fs).netLog,
      t.2 ∉ (runScript net fs0).downloaded) ∧
    (noWriteFault net →
      (runScript net (runScript net fs0).fs).downloaded =
        (runScript net fs0).downloaded) := by
  constructor
  · unfold runScript
    intro t ht hmem
    exact second_run_no_calls net net files_to_download fs0 t.2 hmem t ht rfl
  · intro hWF
    unfold runScript
    exact second_run_eq net files_to_download fs0 hWF

theorem c6_witness :
    noWriteFault ((fun _ => NetBehavior.exnDuringGet) : Net) ∧
    (runScript ((fun _ => NetBehavior.exnDuringGet) : Net)
        (runScript ((fun _ => NetBehavior.exnDuringGet) : Net)
          ((fun _ => none) : FS)).fs).downloaded =
      (runScript ((fun _ => NetBehavior.exnDuringGet) : Net)
        ((fun _ => none) : FS)).downloaded := by
  have hWF : noWriteFault ((fun _ => NetBehavior.exnDuringGet) : Net) := by
    intro u body k h
    simp at h
  exact ⟨hWF, (c6_idempotent_amended ((fun _ => NetBehavior.exnDuringGet) : Net)
    ((fun _ => none) : FS)).2 hWF⟩

/-- C10: after any prefix of the task list the downloaded set is a subset
of the expected set (every filename it holds names some task), and
therefore the summary's comparison of the two sets' cardinalities is
equivalent to comparing the sets for equality. -/
theorem c10_downloaded_subset_expected (net : Net) (fs0 : FS)
    (T₁ T₂ : List (String × String))
    (h : files_to_download = T₁ ++ T₂) :
    (runTasks net (initState fs0) T₁).downloaded ⊆ expected_files ∧
    ((runScript net fs0).downloaded.card = expected_files.card ↔
      (runScript net fs0).downloaded = expected_files) := by
  have hfull : (runScript net fs0).downloaded ⊆ expected_files := by
    unfold runScript expected_files
    exact run_downloaded_subset_filenames net files_to_download fs0
  refine ⟨?_, ?_, fun heq => by rw [heq]⟩
  · intro f hf
    have hx : f ∈ (T₁.map Prod.snd).toFinset :=
      run_downloaded_subset_filenames net T₁ fs0 hf
    show f ∈ (files_to_download.map Prod.snd).toFinset
    rw [h]
    simp only [List.map_append, List.toFinset_append]
    exact Finset.mem_union_left _ hx
  · intro hcard
    exact Finset.eq_of_subset_of_card_le hfull (le_of_eq hcard.symm)

theorem c10_witness :
    (files_to_download = files_to_download ++ []) ∧
    (runTasks ((fun _ => NetBehavior.exnDuringGet) : Net)
        (initState ((fun _ => none) : FS)) files_to_download).downloaded ⊆
      expected_files := by
  have h : files_to_download = files_to_download ++ [] := by simp
  exact ⟨h, (c10_downloaded_subset_expected ((fun _ => NetBehavior.exnDuringGet) : Net)
    ((fun _ => none) : FS) files_to_download [] h).1⟩

end LCC
